import Mathlib

/-!
Verification of the email-agent repository's session lifecycle coordinator,
order persistence tools and message classifier against its specification.

The coordinator embedding follows `src/gradio-app/src/agent/agent.py`
(module globals `_mcp_session_task`, `_mcp_session_stop`, `_mcp_session_ctx`,
`_mcp_session`, `tools`, `agent`, and the functions `init_agent`,
`shutdown_agent`, `invoke_agent` with the background `session_runner` task).
The two configured servers are `CERM_MCP_SERVER_NAME` and
`CERM_AZURE_SERVER_NAME`; sessions are opened through
`mcp_client.session(name)` async context managers and tools loaded with
`load_mcp_tools`.

The embedding is a deterministic model of the cooperative (single event
loop) execution: when `init_agent` enters its polling loops
(`while _mcp_session is None: await asyncio.sleep(0.01)` and
`while not tools: ...`), the background `session_runner` task runs until it
either parks at `await _mcp_session_stop.wait()` or raises; only then do the
polls re-evaluate.  External effects (session open success, `load_mcp_tools`
results, the agent's `ainvoke`) are supplied by an environment record, and
session open/close calls are recorded in an event log so that resource leaks
can be stated.
-/

namespace EmailAgent

/-- The two configured MCP server names of `session_runner`:
`CERM_MCP_SERVER_NAME` (local) and `CERM_AZURE_SERVER_NAME` (m365). -/
inductive Srv where
  | cermMcp
  | cermAzure
deriving DecidableEq, Repr

/-- Session open/close events, logged when a `mcp_client.session(name)`
context manager is entered (`__aenter__` succeeds) or exited (`__aexit__`). -/
inductive Ev where
  | opened (s : Srv)
  | closed (s : Srv)
deriving DecidableEq, Repr

/-- Status of the background `session_runner` asyncio task: parked at
`await _mcp_session_stop.wait()`, or completed with a raised exception. -/
inductive TaskPhase where
  | parked
  | failed
deriving DecidableEq, Repr

/-- External behaviour: whether each server's session open succeeds, what
`load_mcp_tools` returns for each server's session (`none` models a raised
exception), and the agent's `ainvoke` result given the catalog the agent was
created from and the messages passed in. -/
structure Env (Tool Msg Res : Type) where
  openOk : Srv → Bool
  loadRes : Srv → Option (List Tool)
  agentInvoke : List Tool → List Msg → Res

/-- The module-global state of `src/gradio-app/src/agent/agent.py`:
`_mcp_session_task`, `_mcp_session_stop` (`some b` = event exists, `b` = set),
`_mcp_session_ctx`, `_mcp_session`, `tools`, `agent` (modelled by the catalog
it was created from), plus the open/close event log. -/
structure AgentState (Tool : Type) where
  task : Option TaskPhase
  stop : Option Bool
  sessionCtx : Option Srv
  session : Option Srv
  tools : List Tool
  agent : Option (List Tool)
  log : List Ev
deriving DecidableEq, Repr

/-- The state at module import: every global is `None` / the empty list. -/
def init0 {T : Type} : AgentState T :=
  { task := none, stop := none, sessionCtx := none, session := none,
    tools := [], agent := none, log := [] }

/-- Whether a call to `init_agent` returns to its caller (`ok`) or busy-waits
forever in one of its polling loops (`hang`). -/
inductive InitResult where
  | ok
  | hang
deriving DecidableEq, Repr

/-- Whether a call to `shutdown_agent` returns normally or re-raises the
background task's exception at `await _mcp_session_task`. -/
inductive ShutdownResult where
  | ok
  | raised
deriving DecidableEq, Repr

/-- `init_agent` of `src/gradio-app/src/agent/agent.py`, with the
`session_runner` body inlined at the point where the runner task runs
(during `init_agent`'s sleeps).  Faithful details:
* if `_mcp_session_task` is not `None`, return immediately;
* the runner sets `_mcp_session_ctx` to the local context before the `try`;
* its `finally` exits only `session_ctx_local` — the m365 context manager is
  never exited on any path;
* on any runner failure the polling loops of `init_agent` never terminate
  (`_mcp_session` stays `None`, or `tools` stays empty), which we model as
  the `hang` result carrying the state at that point;
* the agent is created only after `tools` is observed non-empty. -/
def init_agent {T M R : Type} (env : Env T M R) (st : AgentState T) :
    InitResult × AgentState T :=
  match st.task with
  | some _ => (.ok, st)
  | none =>
    -- _mcp_session_stop = asyncio.Event(); create_task(session_runner())
    let st1 : AgentState T := { st with stop := some false, sessionCtx := some .cermMcp }
    if env.openOk .cermMcp then
      -- _mcp_session = await session_ctx_local.__aenter__()
      let st2 : AgentState T :=
        { st1 with session := some .cermMcp, log := st1.log ++ [.opened .cermMcp] }
      if env.openOk .cermAzure then
        -- _mcp_m365_session = await session_ctx_m365.__aenter__()
        let st3 : AgentState T := { st2 with log := st2.log ++ [.opened .cermAzure] }
        match env.loadRes .cermMcp, env.loadRes .cermAzure with
        | some tl, some tm =>
          -- tools = tools_local; runner parks at await _mcp_session_stop.wait()
          let st4 : AgentState T := { st3 with tools := tl ++ tm, task := some .parked }
          if (tl ++ tm).isEmpty then
            -- `while not tools:` never terminates on an empty catalog
            (.hang, st4)
          else
            -- agent = create_agent(model=model, tools=tools)
            (.ok, { st4 with agent := some (tl ++ tm) })
        | _, _ =>
          -- a load_mcp_tools call raised: finally exits session_ctx_local
          -- only; `while not tools:` never terminates
          (.hang, { st3 with log := st3.log ++ [.closed .cermMcp], task := some .failed })
      else
        -- the m365 __aenter__ raised: finally exits session_ctx_local only;
        -- `while not tools:` never terminates
        (.hang, { st2 with log := st2.log ++ [.closed .cermMcp], task := some .failed })
    else
      -- the local __aenter__ raised before _mcp_session was assigned; the
      -- finally exits a never-entered context (nothing was opened);
      -- `while _mcp_session is None:` never terminates
      (.hang, { st1 with task := some .failed })

/-- `shutdown_agent` of `src/gradio-app/src/agent/agent.py`.  If the runner
task is parked, setting `_mcp_session_stop` wakes it, its `finally` exits
`session_ctx_local` (only), and the globals are cleared.  If the runner task
already completed with an exception, `await _mcp_session_task` re-raises it
before any of the clearing assignments run. -/
def shutdown_agent {T : Type} (st : AgentState T) : ShutdownResult × AgentState T :=
  match st.task with
  | none => (.ok, st)
  | some .parked =>
    (.ok, { st with task := none, stop := none, sessionCtx := none,
                    session := none, agent := none, tools := [],
                    log := st.log ++ [.closed .cermMcp] })
  | some .failed => (.raised, { st with stop := some true })

/-- `invoke_agent` of `src/gradio-app/src/agent/agent.py`: raises
`RuntimeError("Agent not initialized...")` when `agent is None` (modelled as
`.error ()`), otherwise returns `(await agent.ainvoke({"messages": messages}),
messages)`.  The state is untouched on both paths. -/
def invoke_agent {T M R : Type} (env : Env T M R) (st : AgentState T)
    (messages : List M) : Except Unit (R × List M) × AgentState T :=
  match st.agent with
  | none => (.error (), st)
  | some cat => (.ok (env.agentInvoke cat messages, messages), st)

/-- Number of times session `s` was opened according to the log. -/
def openCount (s : Srv) : List Ev → Nat
  | [] => 0
  | .opened s2 :: rest => (if s2 = s then 1 else 0) + openCount s rest
  | .closed _ :: rest => openCount s rest

/-- Number of times session `s` was closed according to the log. -/
def closeCount (s : Srv) : List Ev → Nat
  | [] => 0
  | .closed s2 :: rest => (if s2 = s then 1 else 0) + closeCount s rest
  | .opened _ :: rest => closeCount s rest

/-- A session is (still) open when it was opened more times than closed. -/
def sessionIsOpen (log : List Ev) (s : Srv) : Prop :=
  closeCount s log < openCount s log

/-- "Sessions are open": both configured sessions are currently open. -/
def allSessionsOpen (log : List Ev) : Prop :=
  sessionIsOpen log .cermMcp ∧ sessionIsOpen log .cermAzure

/-- Coordinator phase in the spec's sense: `ready` after a successful
`init()` until the next `shutdown()`, `uninit` otherwise. -/
inductive Phase where
  | uninit
  | ready
deriving DecidableEq, Repr

/-- States reachable by sequences of `init_agent` / `shutdown_agent` /
`invoke_agent` calls that return to their caller, starting from the module's
import-time state, together with the spec phase after each call. -/
inductive Reach {T M R : Type} (env : Env T M R) : AgentState T → Phase → Prop where
  | base : Reach env init0 .uninit
  | step_init {st : AgentState T} {ph : Phase} :
      Reach env st ph → (init_agent env st).1 = .ok →
      Reach env (init_agent env st).2 .ready
  | step_shutdown {st : AgentState T} {ph : Phase} :
      Reach env st ph → (shutdown_agent st).1 = .ok →
      Reach env (shutdown_agent st).2 .uninit
  | step_invoke {st : AgentState T} {ph : Phase} (messages : List M) :
      Reach env st ph → Reach env (invoke_agent env st messages).2 ph

/-- Concrete environment realizing the spec's scenario: both sessions open,
the local server exposes tool `x`, the m365 server tools `y` and `z`; the
agent echoes the messages it was given. -/
def envAB : Env String String (List String) :=
  { openOk := fun _ => true,
    loadRes := fun s =>
      match s with
      | .cermMcp => some ["x"]
      | .cermAzure => some ["y", "z"],
    agentInvoke := fun _ messages => messages }

/-- Concrete environment where both sessions open but `load_mcp_tools` raises
for the local server's session. -/
def envLoadFail : Env String String (List String) :=
  { openOk := fun _ => true,
    loadRes := fun s =>
      match s with
      | .cermMcp => none
      | .cermAzure => some ["y"],
    agentInvoke := fun _ messages => messages }

/-!
Order persistence, from `src/src/tools/save_order.py`.  The orders
directory (`downloads/sales_orders`) is modelled as an association list of
file name to file content; `datetime.now().isoformat()` is supplied as the
`now` argument.
-/

/-- `Item` pydantic model of `save_order.py`. -/
structure Item where
  name : String
  quantity : Int
deriving DecidableEq, Repr

/-- `Order` pydantic model of `save_order.py` (field declaration order:
item, customer_name, address, email). -/
structure Order where
  item : List Item
  customer_name : String
  address : String
  email : String
deriving DecidableEq, Repr

/-- `OrderConfirmation` pydantic model of `save_order.py`. -/
structure OrderConfirmation where
  order_path : String
  order_id : String
  success : Bool
deriving DecidableEq, Repr

/-- JSON string escaping as used by `model_dump_json` for the two characters
that need it in the inputs we consider: backslash and double quote. -/
def jsonEscape (s : String) : String :=
  String.mk (s.toList.flatMap fun c =>
    if c = Char.ofNat 92 then [Char.ofNat 92, Char.ofNat 92]
    else if c = Char.ofNat 34 then [Char.ofNat 92, Char.ofNat 34]
    else [c])

/-- A JSON string literal. -/
def jsonStr (s : String) : String :=
  "\"" ++ jsonEscape s ++ "\""

/-- `Item.model_dump_json()`: compact JSON in field order. -/
def itemJson (i : Item) : String :=
  "\x7b\"name\":" ++ jsonStr i.name ++ ",\"quantity\":" ++ toString i.quantity ++ "\x7d"

/-- `Order.model_dump_json()`: compact JSON in field declaration order. -/
def orderJson (o : Order) : String :=
  "\x7b\"item\":[" ++ String.intercalate "," (o.item.map itemJson) ++
    "],\"customer_name\":" ++ jsonStr o.customer_name ++
    ",\"address\":" ++ jsonStr o.address ++
    ",\"email\":" ++ jsonStr o.email ++ "\x7d"

/-- The `downloads/sales_orders` directory: file name with extension mapped
to file content. -/
abbrev OrdersDir := List (String × String)

/-- `path.write_text(...)`: create the file or overwrite an existing one. -/
def write_text (fs : OrdersDir) (name content : String) : OrdersDir :=
  if fs.any (fun f => f.1 = name) then
    fs.map (fun f => if f.1 = name then (name, content) else f)
  else
    fs ++ [(name, content)]

/-- `path.exists()`. -/
def path_exists (fs : OrdersDir) (name : String) : Bool :=
  fs.any (fun f => f.1 = name)

/-- `str.replace(":", "-")` for single-character pattern and replacement. -/
def pyReplace (s : String) (a b : Char) : String :=
  String.mk (s.toList.map fun c => if c = a then b else c)

/-- `save_order` of `src/src/tools/save_order.py`: the file name is the
timestamp-derived id (`isoformat` with `:` replaced by `-`) plus `.json`;
the content is only the order's JSON dump; `success` is `path.exists()`
evaluated after the write. -/
def save_order (now : String) (fs : OrdersDir) (order : Order) :
    OrderConfirmation × OrdersDir :=
  let safe_name := pyReplace now (Char.ofNat 58) (Char.ofNat 45)
  let fname := safe_name ++ ".json"
  let fs2 := write_text fs fname (orderJson order)
  ({ order_path := "downloads/sales_orders/" ++ fname,
     order_id := safe_name,
     success := path_exists fs2 fname }, fs2)

/-- Whether `needle` occurs as a contiguous sublist of `hay`. -/
def listIsInfixOf (needle : List Char) : List Char → Bool
  | [] => needle.isEmpty
  | c :: rest => needle.isPrefixOf (c :: rest) || listIsInfixOf needle rest

/-- Python's `needle in haystack` substring test. -/
def contains_substr (needle hay : String) : Bool :=
  listIsInfixOf needle.toList hay.toList

/-- `suffix` check used to model `ORDERS_PATH.glob("*.json")`. -/
def ends_with_json (name : String) : Bool :=
  ".json".toList.isSuffixOf name.toList

/-- `verify_order` of `src/src/tools/save_order.py`: scans every `*.json`
file in the orders directory and reports whether any file's CONTENT contains
the given id as a substring. -/
def verify_order (fs : OrdersDir) (order_id : String) : Bool :=
  fs.any (fun f => ends_with_json f.1 && contains_substr order_id f.2)

/-- A concrete order used as the round-trip failing input. -/
def orderC8 : Order :=
  { item := [{ name := "widget", quantity := 2 }],
    customer_name := "Alice", address := "Main Street 1",
    email := "alice@example.com" }

/-!
Message classification, from `src/src/tools/classify_message.py`.  The
classification configuration, the JSON parser (`json.loads`) and the model
call are supplied by an environment: `jsonParse` returns `none` on a
`JSONDecodeError`, and `modelText` is the text `_extract_response_text`
produces from the model response, with `none` modelling a raised exception
during `_get_model().invoke(...)`.  `classify_message` returns the category
string paired with the number of model invocations performed.
-/

/-- `Classification` pydantic model: one configured category. -/
structure Classification where
  category : String
  description : String
deriving DecidableEq, Repr

/-- A Python value as produced by `json.loads`. -/
inductive PyVal where
  | null
  | bool (b : Bool)
  | num (n : Int)
  | str (s : String)
  | list (items : List PyVal)
  | dict (entries : List (String × PyVal))

/-- Python truthiness of a parsed JSON value. -/
def pyTruthy : PyVal → Bool
  | .null => false
  | .bool b => b
  | .num n => n != 0
  | .str s => !s.isEmpty
  | .list items => !items.isEmpty
  | .dict entries => !entries.isEmpty

/-- Python's `a or b` over optional values (`none` is `None`, falsy). -/
def pyOr (a b : Option PyVal) : Option PyVal :=
  match a with
  | some v => if pyTruthy v then some v else b
  | none => b

/-- ASCII whitespace stripped by Python's `str.strip()`. -/
def pyIsSpace (c : Char) : Bool :=
  c = ' ' || c = Char.ofNat 9 || c = Char.ofNat 10 || c = Char.ofNat 13 ||
    c = Char.ofNat 11 || c = Char.ofNat 12

/-- `str.strip()`. -/
def pyStrip (s : String) : String :=
  String.mk (((s.toList.dropWhile pyIsSpace).reverse.dropWhile pyIsSpace).reverse)

/-- `str.lower()` on ASCII letters. -/
def pyLowerChar (c : Char) : Char :=
  if 65 ≤ c.toNat ∧ c.toNat ≤ 90 then Char.ofNat (c.toNat + 32) else c

/-- `str.lower()`. -/
def pyLower (s : String) : String :=
  String.mk (s.toList.map pyLowerChar)

/-- `_normalize`: `text.strip().lower()`. -/
def normalize (text : String) : String :=
  pyLower (pyStrip text)

/-- `normalized_map[key]` for the dict comprehension
`{_normalize(category): category for category in categories}`: in a Python
dict comprehension a later duplicate key overwrites an earlier one, so the
value is the LAST category whose normal form is `key`; `none` means
`key not in normalized_map`. -/
def normValue (categories : List String) (key : String) : Option String :=
  match categories with
  | [] => none
  | c :: rest =>
    match normValue rest key with
    | some v => some v
    | none => if normalize c = key then some c else none

/-- `dict.get(key)` over the entries of a parsed JSON object. -/
def dictGet : List (String × PyVal) → String → Option PyVal
  | [], _ => none
  | (k, v) :: rest, key => if k = key then some v else dictGet rest key

/-- The `for key in ("category", "label", "result"):` loop of
`_pick_category` over a parsed JSON dict: the first key whose value is a
string found in the normalized map yields that map entry. -/
def keyPickLoop (categories : List String) (d : List (String × PyVal)) :
    List String → Option String
  | [] => none
  | key :: rest =>
    match dictGet d key with
    | some (.str v) =>
      match normValue categories (normalize v) with
      | some c => some c
      | none => keyPickLoop categories d rest
    | _ => keyPickLoop categories d rest

/-- The `for item in parsed:` loop of `_pick_category` over a parsed JSON
list: a string item found in the map wins; a dict item contributes
`item.get("category") or item.get("label") or item.get("result")`. -/
def listPickLoop (categories : List String) : List PyVal → Option String
  | [] => none
  | item :: rest =>
    match item with
    | .str s =>
      match normValue categories (normalize s) with
      | some c => some c
      | none => listPickLoop categories rest
    | .dict d =>
      match pyOr (dictGet d "category") (pyOr (dictGet d "label") (dictGet d "result")) with
      | some (.str v) =>
        match normValue categories (normalize v) with
        | some c => some c
        | none => listPickLoop categories rest
      | _ => listPickLoop categories rest
    | _ => listPickLoop categories rest

/-- The characters of `line.strip("\x60\"' ")` in `_pick_category`:
backtick, double quote, single quote, space. -/
def stripCharsSet : List Char :=
  [Char.ofNat 96, Char.ofNat 34, Char.ofNat 39, ' ']

/-- `str.strip(chars)`: drop the given characters from both ends. -/
def pyStripChars (cs : List Char) (s : String) : String :=
  String.mk (((s.toList.dropWhile (cs.contains ·)).reverse.dropWhile (cs.contains ·)).reverse)

/-- Helper for `str.splitlines()`: split on LF, CR and CRLF, no trailing
empty line. -/
def splitlinesGo : List Char → List Char → List (List Char)
  | [], cur => if cur.isEmpty then [] else [cur]
  | c :: rest, cur =>
    if c = Char.ofNat 10 then cur :: splitlinesGo rest []
    else if c = Char.ofNat 13 then
      match rest with
      | d :: rest2 =>
        if d = Char.ofNat 10 then cur :: splitlinesGo rest2 []
        else cur :: splitlinesGo (d :: rest2) []
      | [] => [cur]
    else splitlinesGo rest (cur ++ [c])

/-- `str.splitlines()`. -/
def pySplitlines (s : String) : List String :=
  (splitlinesGo s.toList []).map String.mk

/-- The `for line in response_text.splitlines():` loop of `_pick_category`:
first line whose stripped, normalized form is in the map. -/
def linePickLoop (categories : List String) : List String → Option String
  | [] => none
  | line :: rest =>
    match normValue categories (normalize (pyStripChars stripCharsSet line)) with
    | some c => some c
    | none => linePickLoop categories rest

/-- The final `for category in categories:` loop of `_pick_category`: first
category whose lowercase form is a substring of the lowercased response. -/
def substrLoop (lowered : String) : List String → Option String
  | [] => none
  | c :: rest =>
    if contains_substr (pyLower c) lowered then some c else substrLoop lowered rest

/-- `_pick_category` of `src/src/tools/classify_message.py`: empty response
falls to `"Other"`; a JSON dict or list may resolve a category; otherwise
the per-line scan, then the substring scan, then `"Other"`. -/
def pick_category (parse : String → Option PyVal) (response_text : String)
    (categories : List String) : String :=
  if response_text = "" then "Other"
  else
    let parsed := parse response_text
    let fromJson :=
      match parsed with
      | some (.dict d) => keyPickLoop categories d ["category", "label", "result"]
      | some (.list items) => listPickLoop categories items
      | _ => none
    match fromJson with
    | some c => c
    | none =>
      match linePickLoop categories (pySplitlines response_text) with
      | some c => c
      | none =>
        match substrLoop (pyLower response_text) categories with
        | some c => c
        | none => "Other"

/-- Environment of `classify_message`: the configured classifications
(`get_classifications()`), `json.loads`, and the model call's extracted
response text (`none` = the model invocation raised). -/
structure ClassifyEnv where
  classifications : List Classification
  jsonParse : String → Option PyVal
  modelText : Option String

/-- `classify_message` of `src/src/tools/classify_message.py`.  The second
component counts model invocations: an empty (stripped) message returns
`"Other"` before any model call; a raised model call is caught and yields
`"Other"`. -/
def classify_message (env : ClassifyEnv) (message : String) : String × Nat :=
  let categories := env.classifications.map Classification.category
  let m := pyStrip message
  if m = "" then ("Other", 0)
  else
    match env.modelText with
    | none => ("Other", 1)
    | some response_text =>
      (pick_category env.jsonParse response_text categories, 1)

/-- A concrete classification environment for the witness. -/
def envC10 : ClassifyEnv :=
  { classifications := [{ category := "Invoice", description := "bills" }],
    jsonParse := fun _ => none,
    modelText := none }

/-- Structural invariant tying the globals and the open/close log to the
spec phase. -/
def Inv {T : Type} (st : AgentState T) (ph : Phase) : Prop :=
  match ph with
  | .uninit =>
      st.agent = none ∧ st.tools = [] ∧ st.task = none ∧
      openCount .cermMcp st.log = closeCount .cermMcp st.log ∧
      closeCount .cermAzure st.log = 0
  | .ready =>
      st.agent = some st.tools ∧ st.tools ≠ [] ∧ st.task = some .parked ∧
      openCount .cermMcp st.log = closeCount .cermMcp st.log + 1 ∧
      0 < openCount .cermAzure st.log ∧ closeCount .cermAzure st.log = 0

theorem openCount_append (s : Srv) (l1 l2 : List Ev) :
    openCount s (l1 ++ l2) = openCount s l1 + openCount s l2 := by
  induction l1 with
  | nil => simp [openCount]
  | cons e rest ih => cases e <;> simp [openCount, ih, Nat.add_assoc]

theorem closeCount_append (s : Srv) (l1 l2 : List Ev) :
    closeCount s (l1 ++ l2) = closeCount s l1 + closeCount s l2 := by
  induction l1 with
  | nil => simp [closeCount]
  | cons e rest ih => cases e <;> simp [closeCount, ih, Nat.add_assoc]

/-- A second call to `init_agent` while the runner task exists returns
immediately with the state untouched. -/
theorem init_agent_already {T M R : Type} (env : Env T M R) (st : AgentState T)
    (p : TaskPhase) (h : st.task = some p) : init_agent env st = (.ok, st) := by
  unfold init_agent
  rw [h]

/-- The exact state produced by a fully successful `init_agent` from the
import-time state. -/
theorem init_agent_success_state {T M R : Type} (env : Env T M R) (tl tm : List T)
    (h1 : env.openOk .cermMcp = true) (h2 : env.openOk .cermAzure = true)
    (h3 : env.loadRes .cermMcp = some tl) (h4 : env.loadRes .cermAzure = some tm)
    (h5 : (tl ++ tm).isEmpty = false) :
    init_agent env init0 =
      (.ok, { task := some .parked, stop := some false, sessionCtx := some .cermMcp,
              session := some .cermMcp, tools := tl ++ tm, agent := some (tl ++ tm),
              log := [.opened .cermMcp, .opened .cermAzure] }) := by
  simp [init_agent, init0, h1, h2, h3, h4, h5]

/-- C2: after a successful `init()`, the tool catalog is the concatenation,
in configured server order (local then m365), of each server's tool
descriptors, and the coordinator is ready (the agent was created from that
catalog). -/
theorem init_catalog_concat {T M R : Type} (env : Env T M R) (tl tm : List T)
    (h1 : env.openOk .cermMcp = true) (h2 : env.openOk .cermAzure = true)
    (h3 : env.loadRes .cermMcp = some tl) (h4 : env.loadRes .cermAzure = some tm)
    (h5 : (tl ++ tm).isEmpty = false) :
    (init_agent env init0).1 = .ok ∧
    (init_agent env init0).2.tools = tl ++ tm ∧
    (init_agent env init0).2.agent = some (tl ++ tm) := by
  rw [init_agent_success_state env tl tm h1 h2 h3 h4 h5]
  exact ⟨rfl, rfl, rfl⟩

/-- Witness for C2 at the spec's scenario: servers with tools `[x]` and
`[y, z]` yield the catalog `[x, y, z]`. -/
theorem init_catalog_concat_witness :
    (init_agent envAB init0).1 = .ok ∧
    (init_agent envAB init0).2.tools = ["x", "y", "z"] ∧
    (init_agent envAB init0).2.agent = some ["x", "y", "z"] :=
  init_catalog_concat envAB ["x"] ["y", "z"] rfl rfl rfl rfl rfl

/-- C1: when both sessions have opened and a tool-catalog load then fails,
the runner's `finally` closes only the local session context — the m365
session stays open (opened once, closed zero times) — and, far from
propagating an initialization error, `init_agent` never returns: it hangs in
its `while not tools:` poll with `_mcp_session` and the task still set, so
the coordinator is not returned to the uninitialized state. -/
theorem init_failure_leak :
    (init_agent envLoadFail init0).1 = .hang ∧
    openCount .cermAzure (init_agent envLoadFail init0).2.log = 1 ∧
    closeCount .cermAzure (init_agent envLoadFail init0).2.log = 0 ∧
    (init_agent envLoadFail init0).2.session = some .cermMcp ∧
    (init_agent envLoadFail init0).2.task = some .failed := by
  decide

/-- C3: a second `init_agent` call without an intervening shutdown returns
immediately with the state unchanged, so across the two calls each
configured session was opened exactly once (in particular at most once). -/
theorem init_idempotent {T M R : Type} (env : Env T M R) (tl tm : List T)
    (h1 : env.openOk .cermMcp = true) (h2 : env.openOk .cermAzure = true)
    (h3 : env.loadRes .cermMcp = some tl) (h4 : env.loadRes .cermAzure = some tm)
    (h5 : (tl ++ tm).isEmpty = false) :
    init_agent env (init_agent env init0).2 = (.ok, (init_agent env init0).2) ∧
    openCount .cermMcp (init_agent env init0).2.log = 1 ∧
    openCount .cermAzure (init_agent env init0).2.log = 1 := by
  rw [init_agent_success_state env tl tm h1 h2 h3 h4 h5]
  exact ⟨init_agent_already env _ .parked rfl, rfl, rfl⟩

/-- Witness for C3 at the concrete two-server environment. -/
theorem init_idempotent_witness :
    init_agent envAB (init_agent envAB init0).2 = (.ok, (init_agent envAB init0).2) ∧
    openCount .cermMcp (init_agent envAB init0).2.log = 1 ∧
    openCount .cermAzure (init_agent envAB init0).2.log = 1 :=
  init_idempotent envAB ["x"] ["y", "z"] rfl rfl rfl rfl rfl

/-- C4: `invoke_agent` with no agent set raises the not-initialized
`RuntimeError` and leaves the state exactly as it was (no auto-init). -/
theorem invoke_requires_init {T M R : Type} (env : Env T M R) (st : AgentState T)
    (messages : List M) (h : st.agent = none) :
    invoke_agent env st messages = (.error (), st) := by
  unfold invoke_agent
  rw [h]

/-- Witness for C4 at the import-time state. -/
theorem invoke_requires_init_witness :
    (init0 (T := String)).agent = none ∧
    invoke_agent envAB init0 ["hello"] = (.error (), init0) :=
  ⟨rfl, invoke_requires_init envAB init0 ["hello"] rfl⟩

/-- C5: running `shutdown()`, a successful `init()`, then `shutdown()` does
end with the uninitialized globals (no agent, empty catalog, no task), but
the m365 session opened during `init()` is never closed — it was opened once
and closed zero times — because the runner's `finally` exits only the local
session context.  The `closed exactly once` part of the claim fails. -/
theorem shutdown_leaks_azure :
    (shutdown_agent (init0 (T := String))).1 = .ok ∧
    (init_agent envAB (shutdown_agent init0).2).1 = .ok ∧
    (shutdown_agent (init_agent envAB (shutdown_agent init0).2).2).1 = .ok ∧
    (shutdown_agent (init_agent envAB (shutdown_agent init0).2).2).2.agent = none ∧
    (shutdown_agent (init_agent envAB (shutdown_agent init0).2).2).2.tools = [] ∧
    (shutdown_agent (init_agent envAB (shutdown_agent init0).2).2).2.task = none ∧
    openCount .cermAzure (shutdown_agent (init_agent envAB (shutdown_agent init0).2).2).2.log = 1 ∧
    closeCount .cermAzure (shutdown_agent (init_agent envAB (shutdown_agent init0).2).2).2.log = 0 := by
  decide

/-- C7: when the coordinator is ready, `invoke_agent` returns the pair of
the agent's raw response and the very messages list passed in, and leaves
the state untouched. -/
theorem invoke_ready_pair {T M R : Type} (env : Env T M R) (st : AgentState T)
    (messages : List M) (cat : List T) (h : st.agent = some cat) :
    invoke_agent env st messages =
      (.ok (env.agentInvoke cat messages, messages), st) := by
  unfold invoke_agent
  rw [h]

/-- Witness for C7 in the ready state after a successful `init()`. -/
theorem invoke_ready_pair_witness :
    (init_agent envAB init0).2.agent = some ["x", "y", "z"] ∧
    invoke_agent envAB (init_agent envAB init0).2 ["hello"] =
      (.ok (["hello"], ["hello"]), (init_agent envAB init0).2) :=
  ⟨by decide,
   invoke_ready_pair envAB (init_agent envAB init0).2 ["hello"] ["x", "y", "z"]
     (by decide)⟩

/-- C9: `shutdown_agent` called on the import-time state (before any
`init_agent`) is a no-op: it returns normally, closes nothing, and leaves
every global exactly as it was. -/
theorem shutdown_noop_uninitialized (T : Type) :
    shutdown_agent (init0 (T := T)) = (.ok, init0) := rfl

/-- `invoke_agent` never mutates the coordinator state. -/
theorem invoke_agent_state {T M R : Type} (env : Env T M R) (st : AgentState T)
    (messages : List M) : (invoke_agent env st messages).2 = st := by
  unfold invoke_agent
  rcases h : st.agent with _ | cat <;> rfl

/-- When `init_agent` returns normally from a state with no runner task, the
environment must have opened both sessions and loaded both catalogs, the
combined catalog is non-empty, and the resulting state is fully determined. -/
theorem init_agent_ok_shape {T M R : Type} (env : Env T M R) (st : AgentState T)
    (htask : st.task = none) (hok : (init_agent env st).1 = .ok) :
    ∃ tl tm, env.loadRes .cermMcp = some tl ∧ env.loadRes .cermAzure = some tm ∧
      (tl ++ tm).isEmpty = false ∧
      (init_agent env st).2 =
        { task := some .parked, stop := some false, sessionCtx := some .cermMcp,
          session := some .cermMcp, tools := tl ++ tm, agent := some (tl ++ tm),
          log := st.log ++ [.opened .cermMcp] ++ [.opened .cermAzure] } := by
  unfold init_agent at hok ⊢
  rw [htask] at hok ⊢
  cases hA : env.openOk .cermMcp with
  | false => simp [hA] at hok
  | true =>
    cases hB : env.openOk .cermAzure with
    | false => simp [hA, hB] at hok
    | true =>
      cases hL : env.loadRes .cermMcp with
      | none => simp [hA, hB, hL] at hok
      | some tl =>
        cases hM : env.loadRes .cermAzure with
        | none => simp [hA, hB, hL, hM] at hok
        | some tm =>
          cases hE : (tl ++ tm).isEmpty with
          | true => simp [hA, hB, hL, hM, hE] at hok
          | false => exact ⟨tl, tm, rfl, rfl, hE, by simp [hE]⟩

/-- Every reachable state satisfies the structural invariant of its phase. -/
theorem reach_inv {T M R : Type} {env : Env T M R} {st : AgentState T}
    {ph : Phase} (h : Reach env st ph) : Inv st ph := by
  induction h with
  | base => simp [Inv, init0, openCount, closeCount]
  | @step_init st ph hr hok ih =>
    cases ph with
    | ready =>
      rw [init_agent_already env st .parked ih.2.2.1]
      exact ih
    | uninit =>
      obtain ⟨ha, ht, htask, hlocal, hazure⟩ := ih
      obtain ⟨tl, tm, hL, hM, hE, hshape⟩ := init_agent_ok_shape env st htask hok
      rw [hshape]
      refine ⟨rfl, ?_, rfl, ?_, ?_, ?_⟩
      · show tl ++ tm ≠ []
        intro hnil
        rw [hnil] at hE
        simp at hE
      · show openCount .cermMcp (st.log ++ [.opened .cermMcp] ++ [.opened .cermAzure]) =
          closeCount .cermMcp (st.log ++ [.opened .cermMcp] ++ [.opened .cermAzure]) + 1
        simp [openCount_append, closeCount_append, openCount, closeCount]
        omega
      · show 0 < openCount .cermAzure (st.log ++ [.opened .cermMcp] ++ [.opened .cermAzure])
        simp [openCount_append, openCount]
      · show closeCount .cermAzure (st.log ++ [.opened .cermMcp] ++ [.opened .cermAzure]) = 0
        simp [closeCount_append, closeCount]
        exact hazure
  | @step_shutdown st ph hr hok ih =>
    rcases htask : st.task with _ | p
    · unfold shutdown_agent
      rw [htask]
      cases ph with
      | uninit => exact ih
      | ready => exact absurd ih.2.2.1 (by simp [htask])
    · cases p with
      | failed =>
        unfold shutdown_agent at hok
        rw [htask] at hok
        simp at hok
      | parked =>
        unfold shutdown_agent
        rw [htask]
        cases ph with
        | uninit => exact absurd ih.2.2.1 (by simp [htask])
        | ready =>
          obtain ⟨ha, ht, _, hlocal, hoazure, hcazure⟩ := ih
          refine ⟨rfl, rfl, rfl, ?_, ?_⟩
          · show openCount .cermMcp (st.log ++ [.closed .cermMcp]) =
              closeCount .cermMcp (st.log ++ [.closed .cermMcp])
            simp [openCount_append, closeCount_append, openCount, closeCount]
            omega
          · show closeCount .cermAzure (st.log ++ [.closed .cermMcp]) = 0
            simp [closeCount_append, closeCount]
            exact hcazure
  | @step_invoke st ph messages hr ih =>
    rw [invoke_agent_state]
    exact ih

/-- C6: in every reachable state, both sessions being open together with a
non-empty catalog is equivalent to the phase being ready, and the agent
reference being non-null is equivalent to the phase being ready. -/
theorem reachable_ready_invariant {T M R : Type} (env : Env T M R)
    (st : AgentState T) (ph : Phase) (h : Reach env st ph) :
    ((allSessionsOpen st.log ∧ st.tools ≠ []) ↔ ph = .ready) ∧
    (st.agent ≠ none ↔ ph = .ready) := by
  have hinv := reach_inv h
  cases ph with
  | uninit =>
    obtain ⟨ha, ht, _, _, _⟩ := hinv
    exact ⟨⟨fun hx => absurd ht hx.2, fun hx => nomatch hx⟩,
           ⟨fun hx => absurd ha hx, fun hx => nomatch hx⟩⟩
  | ready =>
    obtain ⟨ha, ht, _, hlocal, hoazure, hcazure⟩ := hinv
    refine ⟨⟨fun _ => rfl, fun _ => ⟨⟨?_, ?_⟩, ht⟩⟩, ⟨fun _ => rfl, fun _ => by simp [ha]⟩⟩
    · unfold sessionIsOpen
      omega
    · unfold sessionIsOpen
      omega

/-- Witness for C6 at the ready state reached by one successful `init()`. -/
theorem reachable_ready_invariant_witness :
    ((allSessionsOpen (init_agent envAB (init0 (T := String))).2.log ∧
        (init_agent envAB init0).2.tools ≠ []) ↔ Phase.ready = Phase.ready) ∧
    ((init_agent envAB init0).2.agent ≠ none ↔ Phase.ready = Phase.ready) :=
  reachable_ready_invariant envAB (init_agent envAB init0).2 .ready
    (Reach.step_init Reach.base (by decide))

/-- C8: the save/verify round trip fails on the code.  Saving a concrete
order at timestamp `2025-01-01T00:00:00` into an empty orders directory
succeeds and returns the timestamp-derived id `2025-01-01T00-00-00` (a JSON
file for the order is written), yet `verify_order` applied to that very id
returns `false`: the id appears only in the file NAME, while `verify_order`
searches file CONTENTS, which hold only the order's JSON dump. -/
theorem save_verify_roundtrip_fails :
    (save_order "2025-01-01T00:00:00" [] orderC8).1.success = true ∧
    (save_order "2025-01-01T00:00:00" [] orderC8).1.order_id = "2025-01-01T00-00-00" ∧
    path_exists (save_order "2025-01-01T00:00:00" [] orderC8).2
      "2025-01-01T00-00-00.json" = true ∧
    verify_order (save_order "2025-01-01T00:00:00" [] orderC8).2
      (save_order "2025-01-01T00:00:00" [] orderC8).1.order_id = false := by
  decide

/-- A hit in the normalized map is one of the configured categories. -/
theorem normValue_mem (cats : List String) (k c : String)
    (h : normValue cats k = some c) : c ∈ cats := by
  induction cats with
  | nil => simp [normValue] at h
  | cons x rest ih =>
    unfold normValue at h
    cases hrec : normValue rest k with
    | some v =>
      rw [hrec] at h
      injection h with h
      subst h
      exact List.mem_cons_of_mem x (ih hrec)
    | none =>
      rw [hrec] at h
      by_cases hx : normalize x = k
      · rw [if_pos hx] at h
        injection h with h
        subst h
        exact List.mem_cons_self x rest
      · rw [if_neg hx] at h
        cases h

/-- The dict-key loop only returns configured categories. -/
theorem keyPickLoop_mem (cats : List String) (d : List (String × PyVal))
    (keys : List String) (c : String) (h : keyPickLoop cats d keys = some c) :
    c ∈ cats := by
  induction keys with
  | nil => simp [keyPickLoop] at h
  | cons key rest ih =>
    unfold keyPickLoop at h
    split at h
    · split at h
      next c2 hnv =>
        injection h with h
        subst h
        exact normValue_mem _ _ _ hnv
      next hnv => exact ih h
    · exact ih h

/-- The list-item loop only returns configured categories. -/
theorem listPickLoop_mem (cats : List String) (items : List PyVal) (c : String)
    (h : listPickLoop cats items = some c) : c ∈ cats := by
  induction items with
  | nil => simp [listPickLoop] at h
  | cons item rest ih =>
    unfold listPickLoop at h
    split at h
    · split at h
      next c2 hnv =>
        injection h with h
        subst h
        exact normValue_mem _ _ _ hnv
      next hnv => exact ih h
    · split at h
      · split at h
        next c2 hnv =>
          injection h with h
          subst h
          exact normValue_mem _ _ _ hnv
        next hnv => exact ih h
      · exact ih h
    · exact ih h

/-- The per-line loop only returns configured categories. -/
theorem linePickLoop_mem (cats : List String) (lines : List String) (c : String)
    (h : linePickLoop cats lines = some c) : c ∈ cats := by
  induction lines with
  | nil => simp [linePickLoop] at h
  | cons line rest ih =>
    unfold linePickLoop at h
    cases hnv : normValue cats (normalize (pyStripChars stripCharsSet line)) with
    | some c2 =>
      rw [hnv] at h
      injection h with h
      subst h
      exact normValue_mem _ _ _ hnv
    | none =>
      rw [hnv] at h
      exact ih h

/-- The substring loop only returns configured categories. -/
theorem substrLoop_mem (lowered : String) (cats : List String) (c : String)
    (h : substrLoop lowered cats = some c) : c ∈ cats := by
  induction cats with
  | nil => simp [substrLoop] at h
  | cons x rest ih =>
    unfold substrLoop at h
    by_cases hx : contains_substr (pyLower x) lowered = true
    · rw [if_pos hx] at h
      injection h with h
      subst h
      exact List.mem_cons_self x rest
    · rw [if_neg hx] at h
      exact List.mem_cons_of_mem x (ih h)

/-- `_pick_category` returns a configured category or `"Other"`. -/
theorem pick_category_mem (parse : String → Option PyVal) (t : String)
    (cats : List String) :
    pick_category parse t cats ∈ cats ∨ pick_category parse t cats = "Other" := by
  unfold pick_category
  by_cases ht : t = ""
  · rw [if_pos ht]
    exact Or.inr rfl
  · rw [if_neg ht]
    cases hp : parse t with
    | none =>
      cases hl : linePickLoop cats (pySplitlines t) with
      | some c => simp only [hl]; exact Or.inl (linePickLoop_mem _ _ _ hl)
      | none =>
        cases hs : substrLoop (pyLower t) cats with
        | some c => simp only [hl, hs]; exact Or.inl (substrLoop_mem _ _ _ hs)
        | none => simp [hl, hs]
    | some v =>
      cases v with
      | dict d =>
        cases hk : keyPickLoop cats d ["category", "label", "result"] with
        | some c => simp only [hk]; exact Or.inl (keyPickLoop_mem _ _ _ _ hk)
        | none =>
          cases hl : linePickLoop cats (pySplitlines t) with
          | some c => simp only [hk, hl]; exact Or.inl (linePickLoop_mem _ _ _ hl)
          | none =>
            cases hs : substrLoop (pyLower t) cats with
            | some c => simp only [hk, hl, hs]; exact Or.inl (substrLoop_mem _ _ _ hs)
            | none => simp [hk, hl, hs]
      | list items =>
        cases hk : listPickLoop cats items with
        | some c => simp only [hk]; exact Or.inl (listPickLoop_mem _ _ _ hk)
        | none =>
          cases hl : linePickLoop cats (pySplitlines t) with
          | some c => simp only [hk, hl]; exact Or.inl (linePickLoop_mem _ _ _ hl)
          | none =>
            cases hs : substrLoop (pyLower t) cats with
            | some c => simp only [hk, hl, hs]; exact Or.inl (substrLoop_mem _ _ _ hs)
            | none => simp [hk, hl, hs]
      | null =>
        cases hl : linePickLoop cats (pySplitlines t) with
        | some c => simp only [hl]; exact Or.inl (linePickLoop_mem _ _ _ hl)
        | none =>
          cases hs : substrLoop (pyLower t) cats with
          | some c => simp only [hl, hs]; exact Or.inl (substrLoop_mem _ _ _ hs)
          | none => simp [hl, hs]
      | bool b =>
        cases hl : linePickLoop cats (pySplitlines t) with
        | some c => simp only [hl]; exact Or.inl (linePickLoop_mem _ _ _ hl)
        | none =>
          cases hs : substrLoop (pyLower t) cats with
          | some c => simp only [hl, hs]; exact Or.inl (substrLoop_mem _ _ _ hs)
          | none => simp [hl, hs]
      | num n =>
        cases hl : linePickLoop cats (pySplitlines t) with
        | some c => simp only [hl]; exact Or.inl (linePickLoop_mem _ _ _ hl)
        | none =>
          cases hs : substrLoop (pyLower t) cats with
          | some c => simp only [hl, hs]; exact Or.inl (substrLoop_mem _ _ _ hs)
          | none => simp [hl, hs]
      | str s =>
        cases hl : linePickLoop cats (pySplitlines t) with
        | some c => simp only [hl]; exact Or.inl (linePickLoop_mem _ _ _ hl)
        | none =>
          cases hs : substrLoop (pyLower t) cats with
          | some c => simp only [hl, hs]; exact Or.inl (substrLoop_mem _ _ _ hs)
          | none => simp [hl, hs]

/-- C10: `classify_message` always returns a configured category name or
`"Other"`; a whitespace-only message yields `"Other"` with zero model
calls; a raised model invocation yields `"Other"` instead of propagating. -/
theorem classify_message_range (env : ClassifyEnv) (message : String) :
    ((classify_message env message).1 ∈
        env.classifications.map Classification.category ∨
      (classify_message env message).1 = "Other") ∧
    (pyStrip message = "" → classify_message env message = ("Other", 0)) ∧
    (env.modelText = none → (classify_message env message).1 = "Other") := by
  unfold classify_message
  by_cases hm : pyStrip message = ""
  · rw [if_pos hm]
    exact ⟨Or.inr rfl, fun _ => rfl, fun _ => rfl⟩
  · rw [if_neg hm]
    cases ht : env.modelText with
    | none => exact ⟨Or.inr rfl, fun hc => absurd hc hm, fun _ => rfl⟩
    | some t =>
      exact ⟨pick_category_mem env.jsonParse t _, fun hc => absurd hc hm,
        fun hc => nomatch hc⟩

/-- Witness for C10 at a concrete environment whose model call raises and a
whitespace-only message. -/
theorem classify_message_range_witness :
    ((classify_message envC10 " ").1 ∈
        envC10.classifications.map Classification.category ∨
      (classify_message envC10 " ").1 = "Other") ∧
    classify_message envC10 " " = ("Other", 0) ∧
    (classify_message envC10 " ").1 = "Other" :=
  ⟨(classify_message_range envC10 " ").1,
   (classify_message_range envC10 " ").2.1 (by decide),
   (classify_message_range envC10 " ").2.2 rfl⟩

end EmailAgent
